import Mathlib

/-!
Shallow embedding of the multiplayer memory-game server (`src/server.js`):
the room data model, the room registry (`GameState`), the board generator,
and the Socket.IO event handlers (join/start/flip/pause/resume/leave/disconnect).

JavaScript objects are modelled as Lean structures; the `scores` object is an
insertion-ordered association list from player id to score; `undefined` values
(such as an out-of-range array read) are modelled with `Option`.  The
`setTimeout` body that resolves a pending pair of flipped cards is modelled as
the separate function `resolveFlippedPair`, taking the captured acting player id
as a parameter, exactly as the JS closure captures `currentPlayer`.
-/

namespace MemoryGame

/-- A card of the game board (`server.js` lines 107-110).  `symbol` is an
`Option` because the JS code can store `undefined` in it when
`selectedSymbols[i]` is read out of range. -/
structure Card where
  id : Nat
  symbol : Option String
  matched : Bool
  flipped : Bool
deriving Repr, DecidableEq

/-- A player as built by the join-room handler (`server.js` lines 150-154). -/
structure Player where
  id : String
  name : String
  connected : Bool
deriving Repr, DecidableEq

/-- Room configuration (`server.js` lines 35-40).  `timeLimit` is always
`null` in the defaults, modelled as `Option Nat`. -/
structure Config where
  gridSize : Nat
  theme : String
  maxPlayers : Nat
  timeLimit : Option Nat
deriving Repr, DecidableEq

/-- A partial configuration supplied to `createRoom`: each field optionally
overrides the default, like the JS spread `{ ...defaultConfig, ...gameConfig }`. -/
structure PartialConfig where
  gridSize : Option Nat := none
  theme : Option String := none
  maxPlayers : Option Nat := none
  timeLimit : Option (Option Nat) := none
deriving Repr, DecidableEq

/-- The default config of `createRoom` (`server.js` lines 35-40). -/
def defaultConfig : Config :=
  { gridSize := 4, theme := "emojis", maxPlayers := 2, timeLimit := none }

/-- `{ ...defaultConfig, ...gameConfig }` (`server.js` line 44). -/
def mergeConfig (c : PartialConfig) : Config :=
  { gridSize := c.gridSize.getD defaultConfig.gridSize
    theme := c.theme.getD defaultConfig.theme
    maxPlayers := c.maxPlayers.getD defaultConfig.maxPlayers
    timeLimit := c.timeLimit.getD defaultConfig.timeLimit }

/-- Scores: a JS object keyed by player id, insertion ordered. -/
abbrev Scores := List (String × Nat)

/-- A game room (`server.js` lines 42-57).  `flippedCards` holds, in flip
order, the indices into `gameBoard` of the card objects the JS code pushes
(the JS list holds aliases into the board; an index plays that role here). -/
structure Room where
  id : String
  config : Config
  players : List Player
  gameBoard : List Card
  currentPlayer : Nat
  gameStarted : Bool
  paused : Bool
  pausedBy : Option String
  pausedAt : Option Nat
  scores : Scores
  moves : Nat
  startTime : Option Nat
  flippedCards : List Nat
  matchedPairs : Nat
deriving Repr, DecidableEq

/-- The fresh room inserted by `createRoom` (`server.js` lines 42-57). -/
def newRoom (roomId : String) (cfg : Config) : Room :=
  { id := roomId, config := cfg, players := [], gameBoard := []
    currentPlayer := 0, gameStarted := false, paused := false
    pausedBy := none, pausedAt := none, scores := [], moves := 0
    startTime := none, flippedCards := [], matchedPairs := 0 }

/-! ### Scores as a JS object -/

/-- `scores[pid] = v`: overwrite in place if the key exists, else append
(JS object insertion order). -/
def setScore (s : Scores) (pid : String) (v : Nat) : Scores :=
  if s.any (fun kv => kv.1 = pid) then
    s.map (fun kv => if kv.1 = pid then (kv.1, v) else kv)
  else s ++ [(pid, v)]

/-- `scores[pid]++` (`server.js` line 283).  All call sites have the key
present (every player carries a score entry from `addPlayerToRoom`); a
missing key, which JS would turn into `NaN`, is left unchanged. -/
def bumpScore (s : Scores) (pid : String) : Scores :=
  s.map (fun kv => if kv.1 = pid then (kv.1, kv.2 + 1) else kv)

/-- `scores[k]` for a key obtained from `Object.keys(scores)` (always present). -/
def getScore (s : Scores) (k : String) : Nat :=
  ((s.find? (fun kv => kv.1 = k)).map Prod.snd).getD 0

/-- `Object.keys(scores)`: insertion-ordered key list. -/
def scoreKeys (s : Scores) : List String := s.map Prod.fst

/-! ### Room registry (`GameState`) -/

/-- `GameState.rooms`, a `Map` from room id to room, insertion ordered. -/
abbrev Rooms := List (String × Room)

/-- `rooms.get(id)`. -/
def roomsGet (rs : Rooms) (roomId : String) : Option Room :=
  (rs.find? (fun kv => kv.1 = roomId)).map Prod.snd

/-- `rooms.has(id)`. -/
def roomsHas (rs : Rooms) (roomId : String) : Bool :=
  rs.any (fun kv => kv.1 = roomId)

/-- `rooms.set(id, room)`: overwrite in place if present, else append. -/
def roomsSet (rs : Rooms) (roomId : String) (room : Room) : Rooms :=
  if rs.any (fun kv => kv.1 = roomId) then
    rs.map (fun kv => if kv.1 = roomId then (kv.1, room) else kv)
  else rs ++ [(roomId, room)]

/-- `rooms.delete(id)`. -/
def roomsDelete (rs : Rooms) (roomId : String) : Rooms :=
  rs.filter (fun kv => kv.1 ≠ roomId)

/-- `GameState.createRoom(roomId, gameConfig)` (`server.js` lines 34-58):
unconditionally `rooms.set`s a fresh room whose config merges the defaults
with the supplied overrides.  Note: no existence check happens here. -/
def createRoom (rs : Rooms) (roomId : String) (gameConfig : PartialConfig) : Rooms :=
  roomsSet rs roomId (newRoom roomId (mergeConfig gameConfig))

/-- The guard in the join-room handler (`server.js` lines 146-148):
`if (!gameState.rooms.has(roomId)) gameState.createRoom(roomId)`. -/
def ensureRoom (rs : Rooms) (roomId : String) : Rooms :=
  if roomsHas rs roomId then rs else createRoom rs roomId {}

/-- `GameState.addPlayerToRoom(roomId, player)` (`server.js` lines 66-82),
restricted to its effect on the room.  The method also records a reverse
lookup `gameState.players.set(player.id, {...player, roomId})`, used only by
the disconnect handler to find the room; `handleDisconnect` below takes the
room directly, so that map is not modelled.  Returns the updated room and
the success flag. -/
def addPlayerToRoom (room : Room) (player : Player) : Room × Bool :=
  if room.players.length ≥ room.config.maxPlayers then (room, false)
  else
    ({ room with
        players := room.players ++ [player]
        scores := setScore room.scores player.id 0 }, true)

/-! ### Board generator (`GameState.generateGameBoard`) -/

/-- The four built-in symbol themes (`server.js` lines 94-99). -/
def themes : List (String × List String) :=
  [ ("emojis",
     ["🎮", "🎯", "🎨", "🎭", "🎪", "🎫", "🎬", "🎤",
      "🎧", "🎼", "🎹", "🎺", "🎸", "🥁", "🎷", "🎻"]),
    ("animals",
     ["🐶", "🐱", "🐭", "🐹", "🐰", "🦊", "🐻", "🐼",
      "🐨", "🐯", "🦁", "🐮", "🐷", "🐸", "🐵", "🐔"]),
    ("numbers",
     ["1️⃣", "2️⃣", "3️⃣", "4️⃣", "5️⃣", "6️⃣", "7️⃣", "8️⃣",
      "9️⃣", "🔟", "🔢", "💯", "📊", "📈", "📉", "💹"]),
    ("letters",
     ["🅰️", "🅱️", "🅾️", "🆎", "🅿️", "🆘", "🆒", "🆕",
      "🆓", "🆙", "🔤", "🔠", "🔡", "💠", "🔷", "🔶"]) ]

/-- `themes[theme] || themes.emojis` (`server.js` line 101): the fallback to
the default theme fires exactly when the theme name is unknown (every known
theme is a non-empty array, hence truthy). -/
def themeSymbols (theme : String) : List String :=
  ((themes.find? (fun kv => kv.1 = theme)).map Prod.snd).getD
    ["🎮", "🎯", "🎨", "🎭", "🎪", "🎫", "🎬", "🎤",
     "🎧", "🎼", "🎹", "🎺", "🎸", "🥁", "🎷", "🎻"]

/-- The number of iterations of `for (let i = 0; i < pairs; i++)` where
`pairs = gridSize*gridSize/2` as a JS float: `⌈g²/2⌉`. -/
def numPairs (g : Nat) : Nat := (g * g + 1) / 2

/-- The unshuffled card list built by the loop at `server.js` lines 106-111;
`selected[i]?` models `selectedSymbols[i]` (JS `undefined` out of range). -/
def mkCards (g : Nat) (selected : List String) : List Card :=
  (List.range (numPairs g)).flatMap (fun i =>
    [ { id := i * 2, symbol := selected[i]?, matched := false, flipped := false },
      { id := i * 2 + 1, symbol := selected[i]?, matched := false, flipped := false } ])

/-- `[cards[i], cards[j]] = [cards[j], cards[i]]` (`server.js` line 116). -/
def swapIdx (l : List Card) (i j : Nat) : List Card :=
  match l[i]?, l[j]? with
  | some a, some b => (l.set i b).set j a
  | _, _ => l

/-- The Fisher-Yates loop (`server.js` lines 114-117), parametrised by the
random source: at index `i` the JS code draws `j = ⌊random()·(i+1)⌋ ∈ [0, i]`,
modelled as `rand i % (i+1)`.  The recursion runs `i` from high to low. -/
def fyAux (rand : Nat → Nat) (cards : List Card) : Nat → List Card
  | 0 => cards
  | i + 1 => fyAux rand (swapIdx cards (i + 1) (rand (i + 1) % (i + 2))) i

/-- `GameState.generateGameBoard` (`server.js` lines 88-120) as a function of
the config, returning the board stored into `room.gameBoard`.
`selectedSymbols = symbols.slice(0, pairs)` truncates `pairs` to an integer,
hence `take (g*g/2)`. -/
def generateGameBoard (cfg : Config) (rand : Nat → Nat) : List Card :=
  let symbols := themeSymbols cfg.theme
  let selected := symbols.take (cfg.gridSize * cfg.gridSize / 2)
  let cards := mkCards cfg.gridSize selected
  fyAux rand cards (cards.length - 1)

/-! ### Socket.IO events emitted by the handlers -/

/-- The outbound events the server emits (error notices to the caller and
room broadcasts), carrying the payload fields the claims talk about. -/
inductive SEvent where
  | errorMsg (msg : String)
  | gameStartedEv (currentPlayer : Option Player) (scores : Scores)
  | cardFlipped (cardId : Nat) (symbol : Option String) (playerId : String)
  | matchFound (card1 : Nat) (card2 : Nat) (playerId : String) (scores : Scores)
  | gameEnded (scores : Scores) (moves : Nat) (winner : Option Player)
  | noMatch (card1 : Nat) (card2 : Nat)
  | turnChanged (currentPlayer : Option Player)
  | gamePaused (pausedBy : String) (pausedByName : Option String) (reason : Option String)
  | gameResumed (resumedBy : String)
  | playerLeft (player : Player)
  | playerDisconnected (player : Player)
deriving Repr, DecidableEq

/-- Is this event a `card-flipped` broadcast? -/
def SEvent.isCardFlipped : SEvent → Bool
  | .cardFlipped _ _ _ => true
  | _ => false

/-! ### start-game handler -/

/-- The `start-game` handler (`server.js` lines 187-226) acting on the looked
up room (`none` = `rooms.get` missed); `rand` feeds the board shuffle and
`now` is `Date.now()`.  `.error` is the rejection notice sent to the caller;
`.ok` carries the mutated room and the broadcast. -/
def handleStartGame (room? : Option Room) (socketId : String)
    (rand : Nat → Nat) (now : Nat) : Except String (Room × List SEvent) :=
  match room? with
  | none => .error "Room not found"
  | some room =>
    match room.players.find? (fun p => p.id = socketId) with
    | none => .error "Player not in room"
    | some _ =>
      let room' := { room with
        gameBoard := generateGameBoard room.config rand
        gameStarted := true
        startTime := some now
        currentPlayer := 0
        moves := 0 }
      .ok (room', [.gameStartedEv room'.players[room'.currentPlayer]? room'.scores])

/-! ### flip-card handler (synchronous part, before the timeout) -/

/-- First index in the board whose card has this id
(`room.gameBoard.find(c => c.id === cardId)` aliases that element). -/
def findCardIdx (board : List Card) (cardId : Nat) : Option Nat :=
  board.findIdx? (fun c => c.id = cardId)

/-- The synchronous part of the `flip-card` handler (`server.js` lines
231-275): precondition checks, marking the card flipped, pushing it onto
`flippedCards`, and broadcasting `card-flipped`.  Every rejection leaves the
room exactly as received and emits only an error notice.  The deferred
`setTimeout` body is `resolveFlippedPair` below; it is scheduled when
`flippedCards` reaches length 2.  (When `players[currentPlayer]` is
`undefined`, reading `.id` throws and the catch block emits the generic
error, line 331.) -/
def flipCard (room : Room) (socketId : String) (cardId : Nat) : Room × List SEvent :=
  if ¬room.gameStarted then (room, [.errorMsg "Game not started or room not found"])
  else if room.paused then (room, [.errorMsg "Game is currently paused"])
  else
    match room.players[room.currentPlayer]? with
    | none => (room, [.errorMsg "Error processing card flip"])
    | some currentPlayer =>
      if currentPlayer.id ≠ socketId then (room, [.errorMsg "Not your turn"])
      else
        match findCardIdx room.gameBoard cardId with
        | none => (room, [.errorMsg "Invalid card selection"])
        | some idx =>
          match room.gameBoard[idx]? with
          | none => (room, [.errorMsg "Invalid card selection"])
          | some card =>
            if card.matched || card.flipped then
              (room, [.errorMsg "Invalid card selection"])
            else
              let room' := { room with
                gameBoard := room.gameBoard.set idx { card with flipped := true }
                flippedCards := room.flippedCards ++ [idx] }
              (room', [.cardFlipped card.id card.symbol socketId])

/-! ### flip-card resolution (the `setTimeout` body) -/

/-- `room.players.find(p => p.id === winnerKey)` where `winnerKey` is
`Object.keys(scores).reduce((a, b) => scores[a] > scores[b] ? a : b)`
(`server.js` lines 297-299).  An empty `scores` makes JS `reduce` throw;
modelled as `none` (no winner broadcast). -/
def computeWinner (players : List Player) (scores : Scores) : Option Player :=
  match scoreKeys scores with
  | [] => none
  | k :: ks =>
    let winnerKey := ks.foldl
      (fun a b => if getScore scores a > getScore scores b then a else b) k
    players.find? (fun p => p.id = winnerKey)

/-- The `setTimeout` callback of the flip handler (`server.js` lines
278-326).  `actingPlayerId` is the `currentPlayer.id` the closure captured
when the second card was flipped; `card1`/`card2` are the first two entries
of `flippedCards` (the two indices present when the callback was scheduled;
the callback only ever runs with at least two entries).  The game-end
branch's wall-clock duration is presentation data and not modelled. -/
def resolveFlippedPair (room : Room) (actingPlayerId : String) :
    Room × List SEvent :=
  match room.flippedCards with
  | i1 :: i2 :: _ =>
    match room.gameBoard[i1]?, room.gameBoard[i2]? with
    | some card1, some card2 =>
      if card1.symbol = card2.symbol then
        let board' := ((room.gameBoard.set i1 { card1 with matched := true }).set
          i2 { card2 with matched := true })
        let scores' := bumpScore room.scores actingPlayerId
        let matchedPairs' := room.matchedPairs + 1
        let endEvents :=
          if matchedPairs' * 2 = board'.length then
            [SEvent.gameEnded scores' room.moves (computeWinner room.players scores')]
          else []
        ({ room with
            gameBoard := board', scores := scores', matchedPairs := matchedPairs'
            flippedCards := [], moves := room.moves + 1 },
         [SEvent.matchFound card1.id card2.id actingPlayerId scores'] ++ endEvents)
      else
        let board' := ((room.gameBoard.set i1 { card1 with flipped := false }).set
          i2 { card2 with flipped := false })
        let nextPlayer := (room.currentPlayer + 1) % room.players.length
        ({ room with
            gameBoard := board', currentPlayer := nextPlayer
            flippedCards := [], moves := room.moves + 1 },
         [SEvent.noMatch card1.id card2.id,
          SEvent.turnChanged room.players[nextPlayer]?])
    | _, _ => (room, [])
  | _ => (room, [])

/-! ### pause-game / resume-game handlers -/

/-- The `pause-game` handler (`server.js` lines 338-370) on the looked-up
room.  When the room is already paused the `if (!room.paused)` body is
skipped: no mutation, no broadcast, no error.  Returns the (possibly
updated) room and the emitted events; a missing room leaves no room state,
so the wrapper below handles `none`. -/
def pauseGame (room : Room) (socketId : String) (now : Nat) : Room × List SEvent :=
  if ¬room.gameStarted then
    (room, [.errorMsg "Cannot pause: Game not started or room not found"])
  else
    match room.players.find? (fun p => p.id = socketId) with
    | none => (room, [.errorMsg "Player not in room"])
    | some player =>
      if ¬room.paused then
        ({ room with paused := true, pausedBy := some socketId, pausedAt := some now },
         [.gamePaused socketId (some player.name) none])
      else (room, [])

/-- The `resume-game` handler (`server.js` lines 375-414).  When the room is
not paused, the `if (room.paused)` body is skipped: a silent no-op.  On
resume, `startTime += now - pausedAt` (`pausedAt` is always set while
paused; a pause with `pausedAt = none` skips the adjustment, like the JS
`if (room.pausedAt)`). -/
def resumeGame (room : Room) (socketId : String) (now : Nat) : Room × List SEvent :=
  if ¬room.gameStarted then
    (room, [.errorMsg "Cannot resume: Game not started or room not found"])
  else
    match room.players.find? (fun p => p.id = socketId) with
    | none => (room, [.errorMsg "Player not in room"])
    | some _ =>
      if room.paused then
        let newStart :=
          match room.pausedAt with
          | some pa => some ((room.startTime.getD 0) + (now - pa))
          | none => room.startTime
        let room' := { room with
          paused := false, startTime := newStart, pausedBy := none, pausedAt := none }
        (room', [.gameResumed socketId])
      else (room, [])

/-! ### leave-room handler -/

/-- The `leave-room` handler's effect on the registry (`server.js` lines
419-448): splice the player out of the room's list; delete the room when the
list empties.  (The handler also deletes the socket's entry from the reverse
`gameState.players` map, which carries no room state.) -/
def handleLeaveRoom (rs : Rooms) (roomId : String) (socketId : String) :
    Rooms × List SEvent :=
  match roomsGet rs roomId with
  | none => (rs, [])
  | some room =>
    match room.players.findIdx? (fun p => p.id = socketId) with
    | none => (rs, [])
    | some i =>
      let players' := room.players.eraseIdx i
      let evs := match room.players[i]? with
        | some player => [SEvent.playerLeft player]
        | none => []
      if players'.isEmpty then (roomsDelete rs roomId, evs)
      else (roomsSet rs roomId { room with players := players' }, evs)

/-! ### disconnect handler -/

/-- `player.connected = false` on the first player with this id (the JS
`find` aliases that element). -/
def markDisconnected : List Player → String → List Player
  | [], _ => []
  | p :: rest, sid =>
    if p.id = sid then { p with connected := false } :: rest
    else p :: markDisconnected rest sid

/-- The `disconnect` handler's effect on the player's room (`server.js`
lines 453-487): mark the player disconnected (kept in the list), and if the
game is started and not paused, auto-pause attributing it to the
disconnecting socket with reason `"Player disconnected"`. -/
def handleDisconnect (room : Room) (socketId : String) (now : Nat) :
    Room × List SEvent :=
  match room.players.find? (fun p => p.id = socketId) with
  | none => (room, [])
  | some player =>
    let room1 := { room with players := markDisconnected room.players socketId }
    let ev1 := SEvent.playerDisconnected { player with connected := false }
    if room1.gameStarted ∧ ¬room1.paused then
      ({ room1 with paused := true, pausedBy := some socketId, pausedAt := some now },
       [ev1, .gamePaused socketId none (some "Player disconnected")])
    else (room1, [ev1])

/-! ### A concrete two-player game, built by running the handlers

Used by the concrete theorems below: two players join room "r", the game
starts with the identity shuffle (`rand i = i` makes every Fisher-Yates swap
`cards[i] ↔ cards[i]`, leaving the board in generation order: card ids
`2k, 2k+1` share the `k`-th emoji symbol). -/

def alice : Player := { id := "s1", name := "Alice", connected := true }

def bob : Player := { id := "s2", name := "Bob", connected := true }

/-- The room the join-room handler creates for the first joiner. -/
def demoLobby : Room := (roomsGet (ensureRoom [] "r") "r").getD (newRoom "" defaultConfig)

/-- After both players joined. -/
def demoPair : Room := (addPlayerToRoom (addPlayerToRoom demoLobby alice).1 bob).1

/-- After `start-game` from Alice, with the identity shuffle. -/
def demoStarted : Room :=
  match handleStartGame (some demoPair) "s1" (fun i => i) 1000 with
  | .ok (r, _) => r
  | .error _ => demoPair

/-- Alice flips card 0 (🎮) and then card 2 (🎯): two non-matching cards are
pending resolution, `flippedCards = [0, 2]`. -/
def demoTwoFlipped : Room := (flipCard (flipCard demoStarted "s1" 0).1 "s1" 2).1

/-- Alice's third flip (card 4), sent before the resolution timer fires. -/
def demoThirdFlip : Room × List SEvent := flipCard demoTwoFlipped "s1" 4

/-! ## Claims -/

/-- C1: the claim says a flip is rejected while `flippedCards` already holds
two cards, so that no 3 cards are ever simultaneously flipped and unmatched.
The flip-card handler has no such precondition: in the reachable state
`demoTwoFlipped` (two non-matching cards pending resolution), the current
player's third flip is accepted — a `card-flipped` broadcast goes out,
`flippedCards` grows to 3, and three cards of the room are simultaneously
flipped and unmatched.  The code contradicts the claim (and the spec's
mutual-exclusion property). -/
theorem third_flip_accepted_while_two_pending :
    demoTwoFlipped.flippedCards.length = 2 ∧
    demoThirdFlip.2.any SEvent.isCardFlipped = true ∧
    demoThirdFlip.1.flippedCards.length = 3 ∧
    (demoThirdFlip.1.gameBoard.filter (fun c => c.flipped && !c.matched)).length = 3 := by
  decide

/-- C5 counterexample: `demoStarted` is a started room, yet a second
`start-game` from its member Alice is accepted (the handler never checks
`gameStarted`), refuting "a start-game request for a room that is already
started is rejected". -/
theorem startGame_restart_accepted :
    demoStarted.gameStarted = true ∧
    (handleStartGame (some demoStarted) "s1" (fun i => i) 2000).isOk = true := by
  decide

/-- C5 amended: the start-game transition is accepted exactly when the room
exists and the requesting connection is one of its players — whether or not
the game has already started (a second start acts as a restart). -/
theorem startGame_accepted_iff (room? : Option Room) (sid : String)
    (rand : Nat → Nat) (now : Nat) :
    (handleStartGame room? sid rand now).isOk = true ↔
      ∃ room, room? = some room ∧ ∃ p ∈ room.players, p.id = sid := by
  cases room? with
  | none => simp [handleStartGame, Except.isOk, Except.toBool]
  | some room =>
    cases hf : room.players.find? (fun p => p.id = sid) with
    | none =>
      have : ∀ p ∈ room.players, ¬(p.id = sid) := by
        intro p hp
        have := List.find?_eq_none.mp hf p hp
        simpa using this
      simp only [handleStartGame, hf]
      constructor
      · intro h; simp [Except.isOk, Except.toBool] at h
      · rintro ⟨r, hr, p, hp, hid⟩
        cases hr
        exact absurd hid (this p hp)
    | some p =>
      have hmem := List.mem_of_find?_eq_some hf
      have hid := List.find?_some hf
      simp only [handleStartGame, hf]
      constructor
      · intro _
        exact ⟨room, rfl, p, hmem, by simpa using hid⟩
      · intro _; rfl

/-- `rooms.set` followed by `rooms.get` on the same key yields the stored room. -/
theorem roomsGet_roomsSet (rs : Rooms) (k : String) (r : Room) :
    roomsGet (roomsSet rs k r) k = some r := by
  unfold roomsGet roomsSet
  by_cases h : rs.any (fun kv => kv.1 = k)
  · simp only [h, if_true]
    induction rs with
    | nil => simp at h
    | cons kv t ih =>
      by_cases hk : kv.1 = k
      · simp [List.find?, hk]
      · have ht : t.any (fun kv => kv.1 = k) := by
          simp only [List.any_cons, hk] at h
          simpa using h
        simpa [List.find?, hk] using ih ht
  · simp only [h, if_false]
    induction rs with
    | nil => simp [List.find?]
    | cons kv t ih =>
      have hk : ¬(kv.1 = k) := by
        intro hkk
        exact h (by simp [List.any_cons, hkk])
      have ht : ¬t.any (fun kv => kv.1 = k) := by
        intro htt
        exact h (by simp [List.any_cons, htt])
      simpa [List.find?, hk] using ih ht

/-- C6 counterexample: the registry holds room "r" with two players;
`createRoom` on the same id does not leave it unchanged — it overwrites the
room with a fresh empty one, refuting "calling createRoom with that id is a
silent no-op leaving the existing room unchanged". -/
theorem createRoom_existing_overwrites :
    (roomsGet (roomsSet (ensureRoom [] "r") "r" demoPair) "r").map
        (fun r => r.players.length) = some 2 ∧
    (roomsGet (createRoom (roomsSet (ensureRoom [] "r") "r" demoPair) "r" {}) "r").map
        (fun r => r.players.length) = some 0 := by
  decide

/-- C6 amended: `createRoom` unconditionally stores a fresh room under the
id, with the defaults merged with the supplied config; the no-op-if-exists
behaviour belongs to the join-room handler's guard (`ensureRoom`), which
leaves the registry untouched when the id already exists and otherwise
calls `createRoom` with an empty config. -/
theorem createRoom_fresh_and_join_guard (rs : Rooms) (roomId : String)
    (cfg : PartialConfig) :
    roomsGet (createRoom rs roomId cfg) roomId
      = some (newRoom roomId (mergeConfig cfg)) ∧
    (roomsHas rs roomId = true → ensureRoom rs roomId = rs) ∧
    (roomsHas rs roomId = false → ensureRoom rs roomId = createRoom rs roomId {}) := by
  refine ⟨roomsGet_roomsSet rs roomId _, ?_, ?_⟩
  · intro h; simp [ensureRoom, h]
  · intro h; simp [ensureRoom, h]

/-- Witness for the C6 theorem at a concrete registry holding room "r". -/
theorem createRoom_fresh_and_join_guard_witness :
    roomsGet (createRoom (ensureRoom [] "r") "r" {}) "r"
      = some (newRoom "r" (mergeConfig {})) ∧
    ensureRoom (ensureRoom [] "r") "r" = ensureRoom [] "r" :=
  ⟨(createRoom_fresh_and_join_guard (ensureRoom [] "r") "r" {}).1,
   (createRoom_fresh_and_join_guard (ensureRoom [] "r") "r" {}).2.1 (by decide)⟩

/-- C2: resolving a pending pair in a started room advances `currentPlayer`
to `(old + 1) mod |players|` exactly when the two revealed cards do not
match, and leaves it unchanged when they match. -/
theorem resolve_turn_advance (room : Room) (pid : String) (i1 i2 : Nat)
    (rest : List Nat) (c1 c2 : Card)
    (_hs : room.gameStarted = true)
    (hf : room.flippedCards = i1 :: i2 :: rest)
    (h1 : room.gameBoard[i1]? = some c1) (h2 : room.gameBoard[i2]? = some c2) :
    (c1.symbol ≠ c2.symbol →
      (resolveFlippedPair room pid).1.currentPlayer
        = (room.currentPlayer + 1) % room.players.length) ∧
    (c1.symbol = c2.symbol →
      (resolveFlippedPair room pid).1.currentPlayer = room.currentPlayer) := by
  unfold resolveFlippedPair
  rw [hf]
  simp only [h1, h2]
  constructor
  · intro hne
    simp [hne]
  · intro heq
    simp [heq]

/-- Witness for C2 at the concrete pending pair 🎮 vs 🎯 (no match):
the turn passes from player 0 to player 1. -/
theorem resolve_turn_advance_witness :
    (resolveFlippedPair demoTwoFlipped "s1").1.currentPlayer
      = (demoTwoFlipped.currentPlayer + 1) % demoTwoFlipped.players.length :=
  (resolve_turn_advance demoTwoFlipped "s1" 0 2 []
      { id := 0, symbol := some "🎮", matched := false, flipped := true }
      { id := 2, symbol := some "🎯", matched := false, flipped := true }
      (by decide) (by decide) (by decide) (by decide)).1 (by decide)

/-- C9: a pause-game event from a room member while the room is already
paused leaves the room (hence `pausedAt` and `pausedBy`) unchanged and emits
nothing; a resume-game event from a member while not paused is likewise a
silent no-op. -/
theorem pause_idempotent_resume_noop (room : Room) (sid : String) (now : Nat)
    (p : Player) (hp : room.players.find? (fun q => q.id = sid) = some p)
    (hs : room.gameStarted = true) :
    (room.paused = true → pauseGame room sid now = (room, [])) ∧
    (room.paused = false → resumeGame room sid now = (room, [])) := by
  constructor
  · intro hpause
    unfold pauseGame
    simp [hs, hp, hpause]
  · intro hpause
    unfold resumeGame
    simp [hs, hp, hpause]

/-- The demo room paused by Alice. -/
def demoPaused : Room := (pauseGame demoStarted "s1" 2000).1

/-- Witness for C9: a second pause on the paused demo room and a resume on
the unpaused demo room are both exact no-ops. -/
theorem pause_idempotent_resume_noop_witness :
    pauseGame demoPaused "s1" 3000 = (demoPaused, []) ∧
    resumeGame demoStarted "s1" 3000 = (demoStarted, []) :=
  ⟨(pause_idempotent_resume_noop demoPaused "s1" 3000 alice
      (by decide) (by decide)).1 (by decide),
   (pause_idempotent_resume_noop demoStarted "s1" 3000 alice
      (by decide) (by decide)).2 (by decide)⟩

/-- The disjunction of the flip-card rejection conditions as the claim lists
them: room not started (or absent — then there is no room state at all),
room paused, not the caller's turn (including a dangling `currentPlayer`
index), or the referenced card unknown, matched, or already flipped. -/
def flipRejects (room : Room) (sid : String) (cardId : Nat) : Bool :=
  !room.gameStarted || room.paused ||
    (match room.players[room.currentPlayer]? with
     | none => true
     | some p => p.id != sid) ||
    (match findCardIdx room.gameBoard cardId with
     | none => true
     | some i =>
       match room.gameBoard[i]? with
       | none => true
       | some c => c.matched || c.flipped)

/-- C10: whenever a flip-card event is rejected by any precondition, the
whole room state (board flags, `flippedCards`, scores, `currentPlayer`,
`moves`, `matchedPairs`) is returned unchanged and no `card-flipped`
broadcast is emitted (only an error notice to the caller). -/
theorem flip_reject_no_state_change (room : Room) (sid : String) (cardId : Nat)
    (h : flipRejects room sid cardId = true) :
    (flipCard room sid cardId).1 = room ∧
    ∀ e ∈ (flipCard room sid cardId).2, e.isCardFlipped = false := by
  unfold flipCard flipRejects at *
  cases hg : room.gameStarted with
  | false => simp [hg, SEvent.isCardFlipped]
  | true =>
    simp only [hg, Bool.not_true, Bool.false_or] at h
    cases hpz : room.paused with
    | true => simp [hg, hpz, SEvent.isCardFlipped]
    | false =>
      simp only [hpz, Bool.false_or] at h
      cases hcp : room.players[room.currentPlayer]? with
      | none => simp [hg, hpz, hcp, SEvent.isCardFlipped]
      | some p =>
        simp only [hcp] at h
        by_cases hid : p.id = sid
        · simp only [hid, bne_self_eq_false, Bool.false_or] at h
          cases hfind : findCardIdx room.gameBoard cardId with
          | none => simp [hg, hpz, hcp, hid, hfind, SEvent.isCardFlipped]
          | some i =>
            simp only [hfind] at h
            cases hbi : room.gameBoard[i]? with
            | none => simp [hg, hpz, hcp, hid, hfind, hbi, SEvent.isCardFlipped]
            | some c =>
              simp only [hbi] at h
              cases hm : c.matched with
              | true => simp [hg, hpz, hcp, hid, hfind, hbi, hm, SEvent.isCardFlipped]
              | false =>
                cases hfl : c.flipped with
                | true =>
                  simp [hg, hpz, hcp, hid, hfind, hbi, hm, hfl, SEvent.isCardFlipped]
                | false => simp [hm, hfl] at h
        · simp [hg, hpz, hcp, hid, SEvent.isCardFlipped]

/-- Witness for C10: Bob's flip while it is Alice's turn is rejected and
changes nothing. -/
theorem flip_reject_no_state_change_witness :
    (flipCard demoStarted "s2" 0).1 = demoStarted ∧
    ∀ e ∈ (flipCard demoStarted "s2" 0).2, e.isCardFlipped = false :=
  flip_reject_no_state_change demoStarted "s2" 0 (by decide)

/-- `markDisconnected` keeps every player in the list. -/
theorem markDisconnected_length (ps : List Player) (sid : String) :
    (markDisconnected ps sid).length = ps.length := by
  induction ps with
  | nil => rfl
  | cons p rest ih =>
    unfold markDisconnected
    by_cases h : p.id = sid <;> simp [h, ih]

/-- The player the JS `find` aliases ends up in the list with
`connected = false`. -/
theorem markDisconnected_mem (ps : List Player) (sid : String) (p : Player)
    (hp : ps.find? (fun q => q.id = sid) = some p) :
    { p with connected := false } ∈ markDisconnected ps sid := by
  induction ps with
  | nil => simp [List.find?] at hp
  | cons q rest ih =>
    by_cases h : q.id = sid
    · rw [List.find?_cons_of_pos _ (by simpa using h)] at hp
      cases hp
      unfold markDisconnected
      simp [h]
    · rw [List.find?_cons_of_neg _ (by simpa using h)] at hp
      unfold markDisconnected
      simp only [h, if_false]
      exact List.mem_cons_of_mem _ (ih hp)

/-- C8: a disconnect by a player of a started, unpaused room keeps the
player in the list marked `connected = false`, auto-pauses the room with
`pausedBy` the disconnecting connection and the distinguishing reason tag
`"Player disconnected"`, after which every flip attempt is rejected with the
paused-state error. -/
theorem disconnect_marks_and_pauses (room : Room) (sid : String) (now : Nat)
    (p : Player)
    (hp : room.players.find? (fun q => q.id = sid) = some p)
    (hs : room.gameStarted = true) (hnp : room.paused = false) :
    (handleDisconnect room sid now).1.players.length = room.players.length ∧
    { p with connected := false } ∈ (handleDisconnect room sid now).1.players ∧
    (handleDisconnect room sid now).1.paused = true ∧
    (handleDisconnect room sid now).1.pausedBy = some sid ∧
    SEvent.gamePaused sid none (some "Player disconnected")
      ∈ (handleDisconnect room sid now).2 ∧
    ∀ sid2 cid, flipCard (handleDisconnect room sid now).1 sid2 cid
      = ((handleDisconnect room sid now).1,
         [.errorMsg "Game is currently paused"]) := by
  unfold handleDisconnect
  rw [hp]
  simp only [hs, hnp, Bool.false_eq_true, not_false_iff, and_true, if_true, true_and]
  refine ⟨?_, ?_, ?_, ?_⟩
  · exact markDisconnected_length room.players sid
  · exact markDisconnected_mem room.players sid p hp
  · simp
  · intro sid2 cid
    unfold flipCard
    simp

/-- Witness for C8: Bob disconnects from the started demo game; the room is
paused by "s2" and Alice's next flip is rejected with the paused error. -/
theorem disconnect_marks_and_pauses_witness :
    (handleDisconnect demoStarted "s2" 5000).1.pausedBy = some "s2" ∧
    flipCard (handleDisconnect demoStarted "s2" 5000).1 "s1" 0
      = ((handleDisconnect demoStarted "s2" 5000).1,
         [.errorMsg "Game is currently paused"]) :=
  ⟨(disconnect_marks_and_pauses demoStarted "s2" 5000 bob
      (by decide) (by decide) (by decide)).2.2.2.1,
   (disconnect_marks_and_pauses demoStarted "s2" 5000 bob
      (by decide) (by decide) (by decide)).2.2.2.2.2 "s1" 0⟩

/-- Keys after `scores[pid] = v`: the old keys plus `pid`. -/
theorem scoreKeys_setScore (s : Scores) (pid : String) (v : Nat) (x : String) :
    x ∈ scoreKeys (setScore s pid v) ↔ x ∈ scoreKeys s ∨ x = pid := by
  unfold setScore scoreKeys
  by_cases h : s.any (fun kv => kv.1 = pid)
  · simp only [h, if_true]
    have hkeys : (s.map (fun kv => if kv.1 = pid then (kv.1, v) else kv)).map Prod.fst
        = s.map Prod.fst := by
      rw [List.map_map]
      apply List.map_congr_left
      intro kv _
      by_cases hk : kv.1 = pid <;> simp [hk]
    rw [hkeys]
    have hpid : pid ∈ s.map Prod.fst := by
      rcases List.any_eq_true.mp h with ⟨kv, hkv, hkk⟩
      have : kv.1 = pid := by simpa using hkk
      exact this ▸ List.mem_map_of_mem Prod.fst hkv
    exact ⟨fun hx => Or.inl hx, fun hx => hx.elim id (fun he => he ▸ hpid)⟩
  · simp [h, List.map_append]

/-- Deleting a room makes its lookup miss. -/
theorem roomsGet_roomsDelete (rs : Rooms) (k : String) :
    roomsGet (roomsDelete rs k) k = none := by
  unfold roomsGet roomsDelete
  have : (rs.filter (fun kv => kv.1 ≠ k)).find? (fun kv => kv.1 = k) = none := by
    rw [List.find?_eq_none]
    intro kv hkv
    have := (List.mem_filter.mp hkv).2
    simpa using this
  rw [this]
  rfl

/-- C4 counterexample: Bob leaves the two-player demo room; his entry stays
in `scores` (keys still `["s1", "s2"]`) while the player list shrinks to
`["s1"]`, refuting the claimed set equality for leave-room. -/
theorem leave_keeps_score_entry :
    (roomsGet (handleLeaveRoom (roomsSet (ensureRoom [] "r") "r" demoPair) "r" "s2").1 "r").map
      (fun r => (scoreKeys r.scores, r.players.map Player.id))
      = some (["s1", "s2"], ["s1"]) := by
  decide

/-- C4 amended: `addPlayerToRoom` preserves the equality between the ids
holding a `scores` entry and the ids in `players`; `leave-room` preserves
only the inclusion players → scores (the departing player's score entry is
not removed, so the converse can fail). -/
theorem scores_players_sync (room : Room) (player : Player)
    (rs : Rooms) (roomId : String) (sid : String)
    (hinv : ∀ pid, pid ∈ scoreKeys room.scores ↔ ∃ p ∈ room.players, p.id = pid)
    (hget : roomsGet rs roomId = some room) :
    (∀ pid, pid ∈ scoreKeys (addPlayerToRoom room player).1.scores ↔
      ∃ p ∈ (addPlayerToRoom room player).1.players, p.id = pid) ∧
    (∀ room', roomsGet (handleLeaveRoom rs roomId sid).1 roomId = some room' →
      ∀ p ∈ room'.players, p.id ∈ scoreKeys room'.scores) := by
  constructor
  · intro pid
    unfold addPlayerToRoom
    by_cases hfull : room.players.length ≥ room.config.maxPlayers
    · simpa [hfull] using hinv pid
    · simp only [hfull, if_false]
      rw [scoreKeys_setScore, hinv pid]
      simp only [List.mem_append, List.mem_singleton]
      constructor
      · rintro (⟨p, hp, hid⟩ | he)
        · exact ⟨p, Or.inl hp, hid⟩
        · exact ⟨player, Or.inr rfl, he.symm⟩
      · rintro ⟨p, hp | hp, hid⟩
        · exact Or.inl ⟨p, hp, hid⟩
        · cases hp
          exact Or.inr hid.symm
  · intro room' hroom' p hp
    unfold handleLeaveRoom at hroom'
    rw [hget] at hroom'
    dsimp only at hroom'
    cases hidx : room.players.findIdx? (fun q => q.id = sid) with
    | none =>
      rw [hidx] at hroom'
      dsimp only at hroom'
      simp only [hget, Option.some_inj] at hroom'
      subst hroom'
      exact (hinv p.id).mpr ⟨p, hp, rfl⟩
    | some i =>
      rw [hidx] at hroom'
      dsimp only at hroom'
      by_cases hemp : (room.players.eraseIdx i).isEmpty
      · rw [if_pos hemp] at hroom'
        rw [roomsGet_roomsDelete] at hroom'
        cases hroom'
      · rw [if_neg hemp, roomsGet_roomsSet, Option.some_inj] at hroom'
        subst hroom'
        have hmem : p ∈ room.players :=
          (List.eraseIdx_sublist room.players i).subset hp
        exact (hinv p.id).mpr ⟨p, hmem, rfl⟩

/-- Witness for C4 at the demo rooms: Bob's join keeps the sets equal; after
Bob leaves, Alice (still a player) still has her score entry. -/
theorem scores_players_sync_witness :
    ("s2" ∈ scoreKeys (addPlayerToRoom (addPlayerToRoom demoLobby alice).1 bob).1.scores ↔
      ∃ p ∈ (addPlayerToRoom (addPlayerToRoom demoLobby alice).1 bob).1.players,
        p.id = "s2") ∧
    alice.id ∈ scoreKeys demoPair.scores :=
  ⟨(scores_players_sync (addPlayerToRoom demoLobby alice).1 bob
      (roomsSet [] "r" (addPlayerToRoom demoLobby alice).1) "r" "s2"
      (by
        intro pid
        rw [show (addPlayerToRoom demoLobby alice).1.scores = [("s1", 0)] from by decide,
            show (addPlayerToRoom demoLobby alice).1.players = [alice] from by decide]
        simp [scoreKeys, alice, eq_comm])
      (by decide)).1 "s2",
   (scores_players_sync demoPair bob (roomsSet [] "r" demoPair) "r" "s2"
      (by
        intro pid
        rw [show demoPair.scores = [("s1", 0), ("s2", 0)] from by decide,
            show demoPair.players = [alice, bob] from by decide]
        simp [scoreKeys, alice, bob, eq_comm])
      (by decide)).2 { demoPair with players := [alice] } (by decide) alice (by decide)⟩

/-- The `reduce((a, b) => scores[a] > scores[b] ? a : b)` of the game-end
branch returns a key of the list that achieves the maximal score (on ties it
moves to `b`, i.e. the later key). -/
theorem foldl_winner_spec (s : Scores) (ks : List String) (k : String) :
    (ks.foldl (fun a b => if getScore s a > getScore s b then a else b) k) ∈ k :: ks ∧
    ∀ x ∈ k :: ks, getScore s x ≤
      getScore s (ks.foldl (fun a b => if getScore s a > getScore s b then a else b) k) := by
  induction ks generalizing k with
  | nil => simp
  | cons b bs ih =>
    simp only [List.foldl_cons]
    rcases ih (if getScore s k > getScore s b then k else b) with ⟨hmem, hbound⟩
    have hki : getScore s k ≤ getScore s (if getScore s k > getScore s b then k else b) := by
      split <;> omega
    have hbi : getScore s b ≤ getScore s (if getScore s k > getScore s b then k else b) := by
      split <;> omega
    constructor
    · rcases List.mem_cons.mp hmem with h | h
      · rw [h]
        split
        · exact List.mem_cons_self _ _
        · exact List.mem_cons_of_mem _ (List.mem_cons_self _ _)
      · exact List.mem_cons_of_mem _ (List.mem_cons_of_mem _ h)
    · intro x hx
      rcases List.mem_cons.mp hx with rfl | hx'
      · exact le_trans hki (hbound _ (List.mem_cons_self _ _))
      · rcases List.mem_cons.mp hx' with rfl | hx''
        · exact le_trans hbi (hbound _ (List.mem_cons_self _ _))
        · exact hbound x (List.mem_cons_of_mem _ hx'')

/-- The near-finished demo game after Alice left mid-game: 7 of the 8 pairs
are matched, the last pair (🎤, ids 14 and 15) is flipped and pending, only
Bob is still in the room, and the scores object still holds the entry of the
departed Alice — "s1" ↦ 5, reachable because leave-room never removes score
entries — next to Bob's "s2" ↦ 2. -/
def endDemoRoom : Room :=
  { demoStarted with
    players := [bob]
    gameBoard := demoStarted.gameBoard.map (fun c =>
      if c.id = 14 ∨ c.id = 15 then { c with flipped := true }
      else { c with matched := true })
    currentPlayer := 0
    scores := [("s1", 5), ("s2", 2)]
    matchedPairs := 7
    moves := 13
    flippedCards := [14, 15] }

/-- C7 counterexample: resolving the final pair ends the game, but the
broadcast winner is `none` — `Object.keys(scores)` still contains the
departed top scorer "s1", `reduce` picks it, and `players.find` misses — so
the broadcast winner is not a player at all, refuting the claim as stated. -/
theorem gameEnd_winner_missing :
    (resolveFlippedPair endDemoRoom "s2").2
      = [.matchFound 14 15 "s2" [("s1", 5), ("s2", 3)],
         .gameEnded [("s1", 5), ("s2", 3)] 13 none] := by
  decide

/-- C7 amended: provided every `scores` key belongs to a current player (as
is the case whenever no player has left mid-game) and `scores` is non-empty,
the winner the game-end branch computes is a player whose score is maximal
among all entries of the scores mapping, and ties resolve deterministically
(`reduce` keeps the later key on equal scores). -/
theorem computeWinner_maximal (players : List Player) (scores : Scores)
    (hne : scores ≠ [])
    (hmem : ∀ k ∈ scoreKeys scores, ∃ p ∈ players, p.id = k) :
    ∃ p, computeWinner players scores = some p ∧ p ∈ players ∧
      p.id ∈ scoreKeys scores ∧
      ∀ k ∈ scoreKeys scores, getScore scores k ≤ getScore scores p.id := by
  unfold computeWinner
  rcases hks : scoreKeys scores with _ | ⟨k, ks⟩
  · exact absurd (List.map_eq_nil_iff.mp hks) hne
  · rcases foldl_winner_spec scores ks k with ⟨hmemk, hbound⟩
    rcases hmem _ (hks ▸ hmemk) with ⟨q, hq, hqid⟩
    have hsome : (players.find? (fun p =>
        p.id = ks.foldl (fun a b => if getScore scores a > getScore scores b then a else b) k)).isSome := by
      rw [List.find?_isSome]
      exact ⟨q, hq, by simpa using hqid⟩
    rcases Option.isSome_iff_exists.mp hsome with ⟨p, hp⟩
    refine ⟨p, ?_, List.mem_of_find?_eq_some hp, ?_, ?_⟩
    · simp only [hks]
      exact hp
    · have := List.find?_some hp
      have hpid : p.id = ks.foldl
          (fun a b => if getScore scores a > getScore scores b then a else b) k := by
        simpa using this
      rw [hpid]
      exact hmemk
    · intro x hx
      have := List.find?_some hp
      have hpid : p.id = ks.foldl
          (fun a b => if getScore scores a > getScore scores b then a else b) k := by
        simpa using this
      rw [hpid]
      exact hbound x hx

/-- Witness for C7 at a concrete tie: both players hold score 1; the
deterministic tie-break yields Bob (the later key), a maximal scorer. -/
theorem computeWinner_maximal_witness :
    ∃ p, computeWinner [alice, bob] [("s1", 1), ("s2", 1)] = some p ∧
      p ∈ [alice, bob] ∧ p.id ∈ scoreKeys [("s1", 1), ("s2", 1)] ∧
      ∀ k ∈ scoreKeys [("s1", 1), ("s2", 1)],
        getScore [("s1", 1), ("s2", 1)] k ≤ getScore [("s1", 1), ("s2", 1)] p.id :=
  computeWinner_maximal [alice, bob] [("s1", 1), ("s2", 1)] (by decide)
    (by
      intro k hk
      rcases List.mem_cons.mp hk with rfl | hk'
      · exact ⟨alice, by simp, by decide⟩
      · rcases List.mem_cons.mp hk' with rfl | hk''
        · exact ⟨bob, by simp, by decide⟩
        · simp [scoreKeys] at hk'')

/-- Pulling the `m`-th element to the front while writing `a` at position
`m` permutes putting `a` at the front. -/
theorem get_cons_set_perm {α : Type} : ∀ (t : List α) (m : Nat) (h : m < t.length) (a : α),
    (t.get ⟨m, h⟩ :: t.set m a).Perm (a :: t)
  | x :: s, 0, _, a => by simpa using List.Perm.swap a x s
  | x :: s, m + 1, h, a => by
    have hm : m < s.length := by simpa using h
    have h1 : (x :: s).get ⟨m + 1, h⟩ :: (x :: s).set (m + 1) a
        = s.get ⟨m, hm⟩ :: x :: s.set m a := by simp
    rw [h1]
    exact (List.Perm.swap x (s.get ⟨m, hm⟩) _).trans
      (((get_cons_set_perm s m hm a).cons x).trans (List.Perm.swap a x s))

/-- Exchanging the entries at two positions permutes the list. -/
theorem set_set_swap_perm {α : Type} :
    ∀ (l : List α) (i j : Nat) (hi : i < l.length) (hj : j < l.length),
      ((l.set i (l.get ⟨j, hj⟩)).set j (l.get ⟨i, hi⟩)).Perm l
  | x :: t, 0, 0, _, _ => by simp
  | x :: t, 0, m + 1, hi, hj => by
    have hm : m < t.length := by simpa using hj
    have : ((x :: t).set 0 ((x :: t).get ⟨m + 1, hj⟩)).set (m + 1) ((x :: t).get ⟨0, hi⟩)
        = t.get ⟨m, hm⟩ :: t.set m x := by simp
    rw [this]
    exact get_cons_set_perm t m hm x
  | x :: t, k + 1, 0, hi, hj => by
    have hk : k < t.length := by simpa using hi
    have : ((x :: t).set (k + 1) ((x :: t).get ⟨0, hj⟩)).set 0 ((x :: t).get ⟨k + 1, hi⟩)
        = t.get ⟨k, hk⟩ :: t.set k x := by simp
    rw [this]
    exact get_cons_set_perm t k hk x
  | x :: t, k + 1, m + 1, hi, hj => by
    have hk : k < t.length := by simpa using hi
    have hm : m < t.length := by simpa using hj
    have : ((x :: t).set (k + 1) ((x :: t).get ⟨m + 1, hj⟩)).set (m + 1)
        ((x :: t).get ⟨k + 1, hi⟩)
        = x :: ((t.set k (t.get ⟨m, hm⟩)).set m (t.get ⟨k, hk⟩)) := by simp
    rw [this]
    exact (set_set_swap_perm t k m hk hm).cons x

/-- One Fisher-Yates swap permutes the board. -/
theorem swapIdx_perm (l : List Card) (i j : Nat) : (swapIdx l i j).Perm l := by
  unfold swapIdx
  split
  · next a b hi hj =>
    obtain ⟨hi', ha⟩ := List.getElem?_eq_some_iff.mp hi
    obtain ⟨hj', hb⟩ := List.getElem?_eq_some_iff.mp hj
    have ha' : a = l.get ⟨i, hi'⟩ := ha.symm
    have hb' : b = l.get ⟨j, hj'⟩ := hb.symm
    rw [ha', hb']
    exact set_set_swap_perm l i j hi' hj'
  · exact List.Perm.refl l

/-- The whole Fisher-Yates loop permutes the board. -/
theorem fyAux_perm (rand : Nat → Nat) : ∀ (n : Nat) (cards : List Card),
    (fyAux rand cards n).Perm cards
  | 0, cards => List.Perm.refl cards
  | n + 1, cards =>
    (fyAux_perm rand n _).trans (swapIdx_perm cards (n + 1) (rand (n + 1) % (n + 2)))

/-- Iterating `l[i]?` over `range l.length` and duplicating each element
gives the doubled list. -/
theorem range_flatMap_pair {α : Type} : ∀ (l : List α),
    (List.range l.length).flatMap (fun i => [l[i]?, l[i]?])
      = l.flatMap (fun s => [some s, some s])
  | [] => rfl
  | a :: t => by
    rw [List.length_cons, List.range_succ_eq_map, List.flatMap_cons, List.flatMap_map]
    have hc : (fun (i : Nat) => [(a :: t)[i.succ]?, (a :: t)[i.succ]?])
        = (fun i => [t[i]?, t[i]?]) := by
      funext i; simp
    rw [hc, range_flatMap_pair t, List.flatMap_cons]
    simp

/-- The symbol sequence of the unshuffled board, when the pair loop stays in
step with the selected symbols: each selected symbol twice, in order. -/
theorem mkCards_symbols (g : Nat) (sel : List String) (hlen : numPairs g = sel.length) :
    (mkCards g sel).map Card.symbol = sel.flatMap (fun s => [some s, some s]) := by
  unfold mkCards
  rw [hlen, List.map_flatMap]
  have hc : (fun (i : Nat) =>
      ([ { id := i * 2, symbol := sel[i]?, matched := false, flipped := false },
         { id := i * 2 + 1, symbol := sel[i]?, matched := false, flipped := false } ]
        : List Card).map Card.symbol)
      = (fun i => [sel[i]?, sel[i]?]) := by
    funext i; rfl
  rw [hc]
  exact range_flatMap_pair sel

/-- `List.count` agrees with `countP` on propositional equality (bridging
the `BEq` instance the statement elaborates with). -/
theorem count_eq_countP_eq {α : Type} [DecidableEq α] [BEq α] [LawfulBEq α]
    (l : List α) (a : α) : l.count a = l.countP (fun x => x = a) := by
  induction l with
  | nil => rfl
  | cons b t ih =>
    rw [List.count_cons, List.countP_cons, ih]
    by_cases h : b = a <;> simp [h]

/-- In a duplicate-free list, a member is counted once. -/
theorem countP_eq_one_of_nodup_mem {α : Type} [DecidableEq α] (l : List α) (v : α)
    (hnd : l.Nodup) (hv : v ∈ l) : l.countP (fun x => x = v) = 1 := by
  induction l with
  | nil => simp at hv
  | cons a t ih =>
    rw [List.countP_cons]
    rcases List.mem_cons.mp hv with rfl | hv'
    · have hz : t.countP (fun x => x = v) = 0 := by
        rw [List.countP_eq_zero]
        intro x hx
        have hna := (List.nodup_cons.mp hnd).1
        simp only [decide_eq_true_eq]
        intro hxv
        subst hxv
        exact hna hx
      simp [hz]
    · have hne : a ≠ v := by
        intro h
        subst h
        exact (List.nodup_cons.mp hnd).1 hv'
      rw [ih (List.nodup_cons.mp hnd).2 hv']
      simp [hne]

/-- Doubling every element doubles each count. -/
theorem countP_flatMap_pair (l : List String) (v : String) :
    (l.flatMap (fun s => [some s, some s])).countP (fun x => x = some v)
      = 2 * l.countP (fun x => x = v) := by
  induction l with
  | nil => rfl
  | cons a t ih =>
    rw [List.flatMap_cons, List.countP_append, ih, List.countP_cons]
    by_cases h : a = v
    · subst h
      simp [List.countP_cons]
      omega
    · simp [List.countP_cons, h]

/-- Doubling every element doubles the length. -/
theorem length_flatMap_pair (l : List String) :
    (l.flatMap (fun s => [some s, some s])).length = 2 * l.length := by
  induction l with
  | nil => rfl
  | cons a t ih =>
    rw [List.flatMap_cons, List.length_append, ih, List.length_cons]
    simp
    omega

/-- C3 amended: for an even grid size whose pair count `gridSize²/2` fits in
the theme's (duplicate-free) symbol list, the generated board has length
`gridSize²` and every symbol on it appears exactly twice; and the
default-theme fallback fires exactly for an unknown theme name — a known
theme that is merely too small is truncated instead (see the
counterexample), with the excess pairs carrying an undefined symbol. -/
theorem generateGameBoard_pairs (cfg : Config) (rand : Nat → Nat)
    (heven : cfg.gridSize % 2 = 0)
    (hfit : cfg.gridSize * cfg.gridSize / 2 ≤ (themeSymbols cfg.theme).length)
    (hnd : (themeSymbols cfg.theme).Nodup) :
    (generateGameBoard cfg rand).length = cfg.gridSize * cfg.gridSize ∧
    (∀ s ∈ (generateGameBoard cfg rand).map Card.symbol,
      ((generateGameBoard cfg rand).map Card.symbol).count s = 2) ∧
    (∀ t : String, themes.find? (fun kv => kv.1 = t) = none →
      themeSymbols t = themeSymbols "emojis") := by
  have h2 : cfg.gridSize * cfg.gridSize % 2 = 0 := by
    have hm := Nat.mul_mod cfg.gridSize cfg.gridSize 2
    rw [heven] at hm
    simpa using hm
  have hsel : ((themeSymbols cfg.theme).take
      (cfg.gridSize * cfg.gridSize / 2)).length = cfg.gridSize * cfg.gridSize / 2 := by
    rw [List.length_take]
    exact min_eq_left hfit
  have hnum : numPairs cfg.gridSize = ((themeSymbols cfg.theme).take
      (cfg.gridSize * cfg.gridSize / 2)).length := by
    rw [hsel]
    unfold numPairs
    omega
  have hperm : (generateGameBoard cfg rand).Perm
      (mkCards cfg.gridSize ((themeSymbols cfg.theme).take
        (cfg.gridSize * cfg.gridSize / 2))) := by
    unfold generateGameBoard
    exact fyAux_perm rand _ _
  have hsym := mkCards_symbols cfg.gridSize
    ((themeSymbols cfg.theme).take (cfg.gridSize * cfg.gridSize / 2)) hnum
  have hselnd : ((themeSymbols cfg.theme).take
      (cfg.gridSize * cfg.gridSize / 2)).Nodup :=
    (List.take_sublist _ _).nodup hnd
  refine ⟨?_, ?_, ?_⟩
  · rw [hperm.length_eq]
    have hlm : (mkCards cfg.gridSize ((themeSymbols cfg.theme).take
        (cfg.gridSize * cfg.gridSize / 2))).length
        = ((mkCards cfg.gridSize ((themeSymbols cfg.theme).take
          (cfg.gridSize * cfg.gridSize / 2))).map Card.symbol).length := by
      rw [List.length_map]
    rw [hlm, hsym, length_flatMap_pair, hsel]
    omega
  · intro s hs
    have hpm : ((generateGameBoard cfg rand).map Card.symbol).Perm
        (((themeSymbols cfg.theme).take (cfg.gridSize * cfg.gridSize / 2)).flatMap
          (fun x => [some x, some x])) := by
      rw [← hsym]
      exact hperm.map Card.symbol
    have hs' := hpm.mem_iff.mp hs
    rcases List.mem_flatMap.mp hs' with ⟨v, hv, hsv⟩
    have hsv' : s = some v := by simpa using hsv
    rw [count_eq_countP_eq, hsv', hpm.countP_eq, countP_flatMap_pair,
      countP_eq_one_of_nodup_mem _ v hselnd hv]
  · intro t ht
    unfold themeSymbols
    rw [ht]
    rfl

/-- Witness for C3 at the default config (4×4, emojis theme, identity
shuffle): a 16-card board on which 🎮 appears exactly twice. -/
theorem generateGameBoard_pairs_witness :
    (generateGameBoard defaultConfig (fun i => i)).length = 4 * 4 ∧
    ((generateGameBoard defaultConfig (fun i => i)).map Card.symbol).count
      (some "🎮") = 2 :=
  ⟨(generateGameBoard_pairs defaultConfig (fun i => i)
      (by decide) (by decide) (by decide)).1,
   (generateGameBoard_pairs defaultConfig (fun i => i)
      (by decide) (by decide) (by decide)).2.1 (some "🎮") (by decide)⟩

set_option maxRecDepth 4000 in
/-- C3 counterexample: gridSize 6 with the 16-symbol "animals" theme needs
18 pairs.  The claim says a default theme is then used as fallback; instead
the code truncates: the board still draws on the animals symbols (🐶 is on
it) and the out-of-range reads leave 4 cards with an undefined symbol — a
symbol value appearing 4 times, not twice. -/
theorem generateGameBoard_no_theme_fallback :
    (themeSymbols "animals").length < 6 * 6 / 2 ∧
    ((generateGameBoard ⟨6, "animals", 2, none⟩ (fun i => i)).map
      Card.symbol).count none = 4 ∧
    some "🐶" ∈ (generateGameBoard ⟨6, "animals", 2, none⟩ (fun i => i)).map
      Card.symbol := by
  decide

end MemoryGame
